import Mathlib

/-!
Shallow embedding of the SmartDoc task-pane add-in (three near-duplicate React
components: `TextInsertion.tsx`, `AttachmentProcess.tsx`, and the consent-gated
`processEmailData` component).  Host-side objects (the Office mail item, the
attachment content fetch, the browser's `atob` and blob/anchor-click download
machinery) are modelled explicitly; each component's handlers become pure state
transformers that additionally emit a trace of observable browser events
(content fetches issued, file downloads triggered, console errors logged).
Asynchronous callbacks are flattened into enumeration order: each
`getAttachmentContentAsync` callback runs right after its fetch is issued.
-/

/-- Office `EmailAddressDetails`: only the `emailAddress` field is read. -/
structure EmailAddressDetails where
  emailAddress : String
deriving Repr, DecidableEq

/-- One entry of `Office.context.mailbox.item.attachments`. -/
structure HostAttachment where
  id : String
  name : String
  contentType : String
deriving Repr, DecidableEq

/-- `Office.MailboxEnums.AttachmentContentFormat`. -/
inductive AttachmentContentFormat where
  | base64
  | url
  | eml
  | iCalendar
deriving Repr, DecidableEq

/-- The `result.value` delivered to a `getAttachmentContentAsync` callback. -/
structure AttachmentContent where
  content : String
  format : AttachmentContentFormat
deriving Repr, DecidableEq

/-- The `result` delivered to a `getAttachmentContentAsync` callback:
either `Succeeded` with a value, or a failure carrying `result.error`. -/
inductive FetchResult where
  | succeeded (value : AttachmentContent)
  | failed (error : String)
deriving Repr, DecidableEq

/-- `result.status === Office.AsyncResultStatus.Succeeded`. -/
def FetchResult.isSucceeded : FetchResult → Bool
  | .succeeded _ => true
  | .failed _ => false

/-- The open mail item (`Office.context.mailbox.item`): the scalar envelope
fields read by the components, plus the attachment list.  `dateTimeCreated`
holds the `getTime()` value, in milliseconds since the epoch. -/
structure MailItem where
  sender : EmailAddressDetails
  «to» : List EmailAddressDetails
  subject : String
  conversationId : String
  itemId : String
  dateTimeCreated : Int
  attachments : List HostAttachment
deriving Repr, DecidableEq

/-- An attachment descriptor as stored in component state: identifier and
display name only (the `content` field is commented out in the source). -/
structure Attachment where
  id : String
  name : String
deriving Repr, DecidableEq

/-- The payload of a constructed `Blob`: either a `Uint8Array` of bytes or a
raw string. -/
inductive BlobData where
  | bytes (data : List Nat)
  | text (s : String)
deriving Repr, DecidableEq

/-- A browser `Blob`: payload plus MIME type. -/
structure Blob where
  data : BlobData
  type : String
deriving Repr, DecidableEq

/-- Observable browser events emitted by the handlers: an asynchronous content
fetch issued for an attachment id, a synthetic anchor-click download of a blob
under a file name, or a `console.error` line. -/
inductive Event where
  | fetchIssued (attachmentId : String)
  | download (fileName : String) (blob : Blob)
  | consoleError (msg : String)
deriving Repr, DecidableEq

/-- Extracts the attachment id from a fetch-issued event. -/
def Event.fetchId? : Event → Option String
  | .fetchIssued i => some i
  | _ => none

/-- Extracts the file name from a download event. -/
def Event.downloadName? : Event → Option String
  | .download n _ => some n
  | _ => none

/-- Value of one base64 alphabet character, per the browser's `atob`. -/
def base64CharValue (c : Char) : Option Nat :=
  if 'A' ≤ c ∧ c ≤ 'Z' then some (c.toNat - 65)
  else if 'a' ≤ c ∧ c ≤ 'z' then some (c.toNat - 97 + 26)
  else if '0' ≤ c ∧ c ≤ '9' then some (c.toNat - 48 + 52)
  else if c = '+' then some 62
  else if c = '/' then some 63
  else none

/-- Regroups a list of 6-bit values into 8-bit bytes (4 sextets to 3 bytes,
with the standard handling of a trailing group of 2 or 3 sextets). -/
def base64DecodeSextets : List Nat → List Nat
  | a :: b :: c :: d :: rest =>
      (a * 4 + b / 16) :: ((b % 16) * 16 + c / 4) :: ((c % 4) * 64 + d) ::
        base64DecodeSextets rest
  | [a, b, c] => [a * 4 + b / 16, (b % 16) * 16 + c / 4]
  | [a, b] => [a * 4 + b / 16]
  | _ => []

/-- Drops trailing base64 padding characters. -/
def stripBase64Pad (cs : List Char) : List Char :=
  (cs.reverse.dropWhile (fun c => c = '=')).reverse

/-- Model of the browser's `atob` on well-formed input: ASCII whitespace is
ignored, trailing padding stripped, and the base64 alphabet decoded into a
string of characters with code points below 256; `none` models the
`InvalidCharacterError` thrown on malformed input. -/
def atob (s : String) : Option String := do
  let cleaned := s.toList.filter
    (fun c => ¬ (c = ' ' ∨ c = '\t' ∨ c = '\n' ∨ c = '\r' ∨ c = '\x0c'))
  let vals ← (stripBase64Pad cleaned).mapM base64CharValue
  if vals.length % 4 == 1 then none
  else some (String.mk ((base64DecodeSextets vals).map Char.ofNat))

/-- The `charCodeAt` loop of `downloadAttachments`: `byteNumbers[i] =
byteCharacters.charCodeAt(i)`, stored into a `Uint8Array` (which truncates
each entry to a byte). -/
def toByteArray (s : String) : List Nat :=
  s.toList.map (fun c => c.toNat % 256)

/-- The blob construction inside the `getAttachmentContentAsync` success
callback: base64 content is `atob`-decoded character by character into a
`Uint8Array` blob of type `application/octet-stream`; any other format wraps
the raw content string in a blob typed by the attachment's `contentType`.
`none` models `atob` throwing on malformed base64 (the callback then aborts
before any download). -/
def buildBlob (att : HostAttachment) (value : AttachmentContent) : Option Blob :=
  let contentType :=
    if value.format = AttachmentContentFormat.base64 then "application/octet-stream"
    else att.contentType
  if value.format = AttachmentContentFormat.base64 then
    (atob value.content).map
      (fun byteCharacters => { data := BlobData.bytes (toByteArray byteCharacters), type := contentType })
  else
    some { data := BlobData.text value.content, type := contentType }

/-- Events emitted by one `getAttachmentContentAsync` callback: on success, one
anchor-click download named after the attachment (unless `atob` throws); on
failure, one `console.error` line. -/
def callbackEvents (att : HostAttachment) : FetchResult → List Event
  | .succeeded value =>
      match buildBlob att value with
      | some blob => [Event.download att.name blob]
      | none => []
  | .failed err => [Event.consoleError ("Error fetching attachment content " ++ err)]

/-- `isSubmissionInitiated` update performed by one content callback (in the
variants that track it): `true` after a completed success path, `false` on
failure, unchanged when `atob` throws mid-callback. -/
def callbackFlag (flag : Bool) (att : HostAttachment) : FetchResult → Bool
  | .succeeded value => if (buildBlob att value).isSome then true else flag
  | .failed _ => false

/-- A content-fetch result whose callback runs to the `setIsSubmissionInitiated`
line: every failure does, and a success does whenever its blob builds. -/
def callbackCompletes (att : HostAttachment) : FetchResult → Bool
  | .succeeded value => (buildBlob att value).isSome
  | .failed _ => true

/-- The full event trace of the `attachments.forEach` loop of
`downloadAttachments`: per attachment, one issued fetch keyed by its id,
followed by that fetch's callback events. -/
def attachmentEvents (atts : List HostAttachment)
    (getContent : String → FetchResult) : List Event :=
  atts.flatMap (fun att => Event.fetchIssued att.id :: callbackEvents att (getContent att.id))

namespace TextInsertion

/-- Component state of `TextInsertion.tsx`: the fetched attachment descriptors
and the tri-state `isAttachmentFetched` flag. -/
structure State where
  attachments : List Attachment
  isAttachmentFetched : Option Bool
deriving Repr, DecidableEq

/-- The `useState` initial values: empty list, `null` flag. -/
def initialState : State := { attachments := [], isAttachmentFetched := none }

/-- `fetchAttachments` of `TextInsertion.tsx`.  The host enumeration is an
`Except`: `.error` models `Office.context.mailbox.item.attachments` throwing,
which the surrounding `try`/`catch` turns into `isAttachmentFetched = false`
plus a `console.error` line.  On `.ok`, the `forEach` pushes `{id, name}`
descriptors and calls `setAttachments(names)` each iteration (so the state
ends as the full mapped list, and stays unchanged when the list is empty),
after which `setIsAttachmentFetched(attachments.length > 0)` reads the
render-time `attachments` value, not the freshly pushed `names`. -/
def fetchAttachments (s : State)
    (res : Except String (List HostAttachment)) : State × List Event :=
  match res with
  | .ok atts =>
      let names : List Attachment := atts.map (fun a => { id := a.id, name := a.name })
      let s1 := if atts.isEmpty then s else { s with attachments := names }
      ({ s1 with isAttachmentFetched := some (decide (0 < s.attachments.length)) }, [])
  | .error e =>
      ({ s with isAttachmentFetched := some false },
       [Event.consoleError ("Error fetching attachments: " ++ e)])

/-- `downloadAttachments` of `TextInsertion.tsx`: touches no component state,
only issues one content fetch per host attachment and runs the download
callback on each result. -/
def downloadAttachments (atts : List HostAttachment)
    (getContent : String → FetchResult) : List Event :=
  attachmentEvents atts getContent

end TextInsertion

namespace AttachmentProcess

/-- Component state of `AttachmentProcess.tsx`: as `TextInsertion` plus the
`isSubmissionInitiated` flag behind the success banner. -/
structure State where
  attachments : List Attachment
  isAttachmentFetched : Option Bool
  isSubmissionInitiated : Bool
deriving Repr, DecidableEq

/-- The `useState` initial values. -/
def initialState : State :=
  { attachments := [], isAttachmentFetched := none, isSubmissionInitiated := false }

/-- `fetchAttachments` of `AttachmentProcess.tsx` — textually identical to the
`TextInsertion` version, acting on this component's state. -/
def fetchAttachments (s : State)
    (res : Except String (List HostAttachment)) : State × List Event :=
  match res with
  | .ok atts =>
      let names : List Attachment := atts.map (fun a => { id := a.id, name := a.name })
      let s1 := if atts.isEmpty then s else { s with attachments := names }
      ({ s1 with isAttachmentFetched := some (decide (0 < s.attachments.length)) }, [])
  | .error e =>
      ({ s with isAttachmentFetched := some false },
       [Event.consoleError ("Error fetching attachments: " ++ e)])

/-- `downloadAttachments` of `AttachmentProcess.tsx`: per attachment one
content fetch whose callback downloads the blob and sets
`isSubmissionInitiated` (true on a completed success, false on failure);
callbacks are run in enumeration order, so the flag ends as the last
callback's verdict. -/
def downloadAttachments (s : State) (atts : List HostAttachment)
    (getContent : String → FetchResult) : State × List Event :=
  let finalFlag :=
    atts.foldl (fun flag att => callbackFlag flag att (getContent att.id))
      s.isSubmissionInitiated
  ({ s with isSubmissionInitiated := finalFlag }, attachmentEvents atts getContent)

/-- The `To:` line of the metadata section renders
`Office.context.mailbox.item.to[0].emailAddress` with no emptiness check:
`none` models the TypeError thrown when the recipient list is empty. -/
def renderedToAddress (item : MailItem) : Option String :=
  item.«to».head?.map (fun d => d.emailAddress)

end AttachmentProcess

namespace ProcessEmailData

/-- The `metadata` interface of the consent-gated component: exactly six
string fields. -/
structure metadata where
  sender : String
  «to» : String
  subject : String
  conversationId : String
  itemId : String
  timeStamp : String
deriving Repr, DecidableEq

/-- Component state of the consent-gated `processEmailData` component. -/
structure State where
  attachments : List Attachment
  isAttachmentFetched : Option Bool
  isSubmissionInitiated : Bool
  isConsent : Bool
  metaData : Option metadata
deriving Repr, DecidableEq

/-- The `useState` initial values. -/
def initialState : State :=
  { attachments := [], isAttachmentFetched := none, isSubmissionInitiated := false,
    isConsent := false, metaData := none }

/-- `fetchAttachmentMetadata` — textually identical to
`TextInsertion.fetchAttachments`, acting on this component's state. -/
def fetchAttachmentMetadata (s : State)
    (res : Except String (List HostAttachment)) : State × List Event :=
  match res with
  | .ok atts =>
      let names : List Attachment := atts.map (fun a => { id := a.id, name := a.name })
      let s1 := if atts.isEmpty then s else { s with attachments := names }
      ({ s1 with isAttachmentFetched := some (decide (0 < s.attachments.length)) }, [])
  | .error e =>
      ({ s with isAttachmentFetched := some false },
       [Event.consoleError ("Error fetching attachments: " ++ e)])

/-- `getMetadata`: builds the six-field record from the mail item's scalar
fields (`to[0].emailAddress` read with no emptiness check and outside any
`try`/`catch` — `none` models that uncaught TypeError, which leaves all state
untouched), stores it in `metaData`, then calls `fetchAttachmentMetadata`
with the host enumeration `res`. -/
def getMetadata (s : State) (item : MailItem)
    (res : Except String (List HostAttachment)) : Option (State × List Event) :=
  match item.«to» with
  | [] => none
  | firstTo :: _ =>
      let md : metadata :=
        { sender := item.sender.emailAddress
          «to» := firstTo.emailAddress
          subject := item.subject
          conversationId := item.conversationId
          itemId := item.itemId
          timeStamp := toString item.dateTimeCreated }
      some (fetchAttachmentMetadata { s with metaData := some md } res)

/-- JSON string escaping for the flat string fields, modelling
`JSON.stringify` on this record shape. -/
def jsonEscapeChar (c : Char) : String :=
  if c = '"' then "\\\""
  else if c = '\\' then "\\\\"
  else if c = '\n' then "\\n"
  else if c = '\r' then "\\r"
  else if c = '\t' then "\\t"
  else String.singleton c

/-- A JSON string literal for one field value. -/
def jsonString (s : String) : String :=
  "\"" ++ String.join (s.toList.map jsonEscapeChar) ++ "\""

/-- `JSON.stringify(metaData)`: `"null"` for the `null` initial state, else the
object literal with the six fields in insertion order. -/
def jsonStringify : Option metadata → String
  | none => "null"
  | some md =>
      "\x7b\"sender\":" ++ jsonString md.sender ++
      ",\"to\":" ++ jsonString md.«to» ++
      ",\"subject\":" ++ jsonString md.subject ++
      ",\"conversationId\":" ++ jsonString md.conversationId ++
      ",\"itemId\":" ++ jsonString md.itemId ++
      ",\"timeStamp\":" ++ jsonString md.timeStamp ++ "\x7d"

/-- `downloadMetaData`: one synthetic anchor-click download of the
`JSON.stringify`-serialized record, as a `text/plain` blob named
`metadata.txt`. -/
def downloadMetaData (metaData : Option metadata) : Event :=
  Event.download "metadata.txt"
    { data := BlobData.text (jsonStringify metaData), type := "text/plain" }

/-- `downloadAttachments` of the consent-gated component: on a non-throwing
enumeration, per attachment one content fetch (callback as in
`AttachmentProcess`, updating `isSubmissionInitiated`), then exactly one
`downloadMetaData` call on the current `metaData`; a throwing enumeration is
caught and only logged, skipping the metadata download. -/
def downloadAttachments (s : State)
    (res : Except String (List HostAttachment))
    (getContent : String → FetchResult) : State × List Event :=
  match res with
  | .ok atts =>
      let finalFlag :=
        atts.foldl (fun flag att => callbackFlag flag att (getContent att.id))
          s.isSubmissionInitiated
      ({ s with isSubmissionInitiated := finalFlag },
       attachmentEvents atts getContent ++ [downloadMetaData s.metaData])
  | .error e =>
      (s, [Event.consoleError ("Error fetching attachments " ++ e)])

/-- The Proceed button is rendered exactly when `attachments.length === 0`. -/
def proceedRendered (s : State) : Bool :=
  s.attachments.length == 0

/-- The Proceed button's `disabled` expression:
`!isConsent && attachments.length > 0`. -/
def proceedDisabled (s : State) : Bool :=
  (!s.isConsent) && decide (0 < s.attachments.length)

end ProcessEmailData

/-! Helper lemmas about the per-attachment callback machinery. -/

/-- Callback events never contain a fetch-issued event. -/
theorem callbackEvents_fetchId (att : HostAttachment) (r : FetchResult) :
    (callbackEvents att r).filterMap Event.fetchId? = [] := by
  cases r with
  | succeeded value =>
      cases h : buildBlob att value with
      | some blob => simp [callbackEvents, h, Event.fetchId?]
      | none => simp [callbackEvents, h]
  | failed err => simp [callbackEvents, Event.fetchId?]

/-- A callback that runs to completion downloads exactly one file, named after
its attachment, on success, and none on failure. -/
theorem callbackEvents_downloadName (att : HostAttachment) (r : FetchResult)
    (h : callbackCompletes att r = true) :
    (callbackEvents att r).filterMap Event.downloadName?
      = if (r.isSucceeded) then [att.name] else [] := by
  cases r with
  | succeeded value =>
      unfold callbackCompletes at h
      obtain ⟨blob, hb⟩ := Option.isSome_iff_exists.mp h
      simp [callbackEvents, hb, Event.downloadName?, FetchResult.isSucceeded]
  | failed err => simp [callbackEvents, Event.downloadName?, FetchResult.isSucceeded]

/-- The fetch-issued events of the download loop are exactly the attachment
ids, in order. -/
theorem attachmentEvents_fetchIds (atts : List HostAttachment)
    (getContent : String → FetchResult) :
    (attachmentEvents atts getContent).filterMap Event.fetchId?
      = atts.map (fun att => att.id) := by
  induction atts with
  | nil => simp [attachmentEvents]
  | cons a rest ih =>
      simp [attachmentEvents, List.filterMap_append, Event.fetchId?,
        callbackEvents_fetchId] at ih ⊢
      exact ih

/-- When every callback completes, the download events of the loop are exactly
the names of the attachments whose fetch succeeded, in order. -/
theorem attachmentEvents_downloadNames (atts : List HostAttachment)
    (getContent : String → FetchResult)
    (h : ∀ att ∈ atts, callbackCompletes att (getContent att.id) = true) :
    (attachmentEvents atts getContent).filterMap Event.downloadName?
      = (atts.filter (fun att => (getContent att.id).isSucceeded)).map
          (fun att => att.name) := by
  induction atts with
  | nil => simp [attachmentEvents]
  | cons a rest ih =>
      have ha := h a (by simp)
      have hrest : ∀ att ∈ rest, callbackCompletes att (getContent att.id) = true :=
        fun att hm => h att (by simp [hm])
      have hcb := callbackEvents_downloadName a (getContent a.id) ha
      by_cases hs : (getContent a.id).isSucceeded
        <;> simp [attachmentEvents, List.filterMap_append, Event.downloadName?,
              hcb, hs, ih hrest, List.filter_cons]
        <;> simp [attachmentEvents] at ih
        <;> exact ih hrest

/-- A callback that runs to completion sets `isSubmissionInitiated` to the
success verdict of its fetch, whatever the flag was before. -/
theorem callbackFlag_of_completes (flag : Bool) (att : HostAttachment)
    (r : FetchResult) (h : callbackCompletes att r = true) :
    callbackFlag flag att r = r.isSucceeded := by
  cases r with
  | succeeded value =>
      simp [callbackCompletes] at h
      simp [callbackFlag, h, FetchResult.isSucceeded]
  | failed err => simp [callbackFlag, FetchResult.isSucceeded]

/-- The fetch variants never change `metaData`. -/
theorem fetchAttachmentMetadata_metaData (s : ProcessEmailData.State)
    (res : Except String (List HostAttachment)) :
    (ProcessEmailData.fetchAttachmentMetadata s res).fst.metaData = s.metaData := by
  cases res with
  | ok atts =>
      unfold ProcessEmailData.fetchAttachmentMetadata
      by_cases hA : atts.isEmpty <;> simp [hA]
  | error e => rfl

/-! Claim theorems. -/

/-- C1: in every fetch variant (`fetchAttachments` in both components and
`fetchAttachmentMetadata`), `isAttachmentFetched` is computed from
`attachments.length > 0` on the pre-invocation component state, not from the
freshly enumerated names; consequently, on a mail item that has attachments,
the first invocation from the initial empty state leaves the state's
attachment list non-empty yet sets the flag to `false` from the stale empty
list. -/
theorem fetch_flag_uses_stale_attachments_state
    (atts : List HostAttachment) (hne : atts ≠ []) :
    (∀ s : TextInsertion.State,
      (TextInsertion.fetchAttachments s (Except.ok atts)).fst.isAttachmentFetched
        = some (decide (0 < s.attachments.length)))
    ∧ (TextInsertion.fetchAttachments TextInsertion.initialState
        (Except.ok atts)).fst.attachments ≠ []
    ∧ (TextInsertion.fetchAttachments TextInsertion.initialState
        (Except.ok atts)).fst.isAttachmentFetched = some false
    ∧ (∀ s : AttachmentProcess.State,
      (AttachmentProcess.fetchAttachments s (Except.ok atts)).fst.isAttachmentFetched
        = some (decide (0 < s.attachments.length)))
    ∧ (AttachmentProcess.fetchAttachments AttachmentProcess.initialState
        (Except.ok atts)).fst.attachments ≠ []
    ∧ (AttachmentProcess.fetchAttachments AttachmentProcess.initialState
        (Except.ok atts)).fst.isAttachmentFetched = some false
    ∧ (∀ s : ProcessEmailData.State,
      (ProcessEmailData.fetchAttachmentMetadata s (Except.ok atts)).fst.isAttachmentFetched
        = some (decide (0 < s.attachments.length)))
    ∧ (ProcessEmailData.fetchAttachmentMetadata ProcessEmailData.initialState
        (Except.ok atts)).fst.attachments ≠ []
    ∧ (ProcessEmailData.fetchAttachmentMetadata ProcessEmailData.initialState
        (Except.ok atts)).fst.isAttachmentFetched = some false := by
  have hE : atts.isEmpty = false := by
    cases atts with
    | nil => exact absurd rfl hne
    | cons a rest => rfl
  refine ⟨fun s => rfl, ?_, rfl, fun s => rfl, ?_, rfl, fun s => rfl, ?_, rfl⟩
    <;> simp [TextInsertion.fetchAttachments, AttachmentProcess.fetchAttachments,
          ProcessEmailData.fetchAttachmentMetadata, TextInsertion.initialState,
          AttachmentProcess.initialState, ProcessEmailData.initialState, hE, hne]

/-- C1 witness: on a one-attachment mail item, the first fetch from the
initial state reports `isAttachmentFetched = some false` in both cited
variants. -/
theorem fetch_flag_uses_stale_attachments_state_witness :
    (TextInsertion.fetchAttachments TextInsertion.initialState
        (Except.ok [{ id := "a1", name := "f.txt", contentType := "text/plain" }])).fst.isAttachmentFetched
      = some false
    ∧ (ProcessEmailData.fetchAttachmentMetadata ProcessEmailData.initialState
        (Except.ok [{ id := "a1", name := "f.txt", contentType := "text/plain" }])).fst.isAttachmentFetched
      = some false :=
  ⟨(fetch_flag_uses_stale_attachments_state
      [{ id := "a1", name := "f.txt", contentType := "text/plain" }] (by decide)).2.2.1,
   (fetch_flag_uses_stale_attachments_state
      [{ id := "a1", name := "f.txt", contentType := "text/plain" }]
      (by decide)).2.2.2.2.2.2.2.2⟩

/-- C2: inside the success callback of a content fetch, the blob is built by
exactly one of two decodings selected by the host-reported format flag: for
the Base64 enum value the content is `atob`-decoded character by character
into a `Uint8Array` wrapped in an `application/octet-stream` blob; for any
other format the raw content string is wrapped unmodified in a blob typed by
the attachment's `contentType`. -/
theorem download_blob_decoding (att : HostAttachment) (content : String)
    (fmt : AttachmentContentFormat) :
    (∀ byteCharacters, atob content = some byteCharacters →
      callbackEvents att
          (FetchResult.succeeded { content := content, format := AttachmentContentFormat.base64 })
        = [Event.download att.name
            { data := BlobData.bytes (toByteArray byteCharacters),
              type := "application/octet-stream" }])
    ∧ (fmt ≠ AttachmentContentFormat.base64 →
      callbackEvents att (FetchResult.succeeded { content := content, format := fmt })
        = [Event.download att.name
            { data := BlobData.text content, type := att.contentType }]) := by
  constructor
  · intro byteCharacters hatob
    simp [callbackEvents, buildBlob, hatob]
  · intro hfmt
    simp [callbackEvents, buildBlob, hfmt]

/-- C2 witness: with content the base64 of the three bytes 65 66 67 the
success callback downloads an octet-stream byte blob, and with a non-base64
format it downloads the raw string under the attachment's content type. -/
theorem download_blob_decoding_witness :
    callbackEvents { id := "a1", name := "f.bin", contentType := "text/plain" }
        (FetchResult.succeeded { content := "QUJD", format := AttachmentContentFormat.base64 })
      = [Event.download "f.bin"
          { data := BlobData.bytes [65, 66, 67], type := "application/octet-stream" }]
    ∧ callbackEvents { id := "a1", name := "f.bin", contentType := "text/plain" }
        (FetchResult.succeeded { content := "hello", format := AttachmentContentFormat.url })
      = [Event.download "f.bin" { data := BlobData.text "hello", type := "text/plain" }] :=
  ⟨((download_blob_decoding { id := "a1", name := "f.bin", contentType := "text/plain" }
      "QUJD" AttachmentContentFormat.url).1 "ABC" (by decide)).trans (by decide),
   (download_blob_decoding { id := "a1", name := "f.bin", contentType := "text/plain" }
      "hello" AttachmentContentFormat.url).2 (by decide)⟩

/-- C3: when the host attachment enumeration throws, every fetch variant
catches the exception at the call site and returns normally (the embedded
handler is a total function: nothing propagates, the enumeration is consulted
exactly once, so no retry), logging one console error and producing exactly
the pre-state with `isAttachmentFetched := some false` — in particular the
`attachments` state is unchanged. -/
theorem fetch_error_caught_and_flagged (e : String)
    (s1 : TextInsertion.State) (s2 : AttachmentProcess.State)
    (s3 : ProcessEmailData.State) :
    TextInsertion.fetchAttachments s1 (Except.error e)
      = ({ s1 with isAttachmentFetched := some false },
         [Event.consoleError ("Error fetching attachments: " ++ e)])
    ∧ AttachmentProcess.fetchAttachments s2 (Except.error e)
      = ({ s2 with isAttachmentFetched := some false },
         [Event.consoleError ("Error fetching attachments: " ++ e)])
    ∧ ProcessEmailData.fetchAttachmentMetadata s3 (Except.error e)
      = ({ s3 with isAttachmentFetched := some false },
         [Event.consoleError ("Error fetching attachments: " ++ e)]) :=
  ⟨rfl, rfl, rfl⟩

/-- C4: whenever the Proceed button is rendered (which requires an empty
attachments state), its disabled expression
`!isConsent && attachments.length > 0` evaluates to false regardless of
`isConsent`, so `getMetadata` can be triggered with the consent checkbox
unchecked. -/
theorem proceed_enabled_without_consent (s : ProcessEmailData.State)
    (h : ProcessEmailData.proceedRendered s = true) :
    ProcessEmailData.proceedDisabled s = false := by
  have hlen : s.attachments.length = 0 := by
    simpa [ProcessEmailData.proceedRendered] using h
  simp [ProcessEmailData.proceedDisabled, hlen]

/-- C4 witness: in the initial state (consent unchecked, no attachments) the
Proceed button is rendered and not disabled. -/
theorem proceed_enabled_without_consent_witness :
    ProcessEmailData.proceedRendered ProcessEmailData.initialState = true
    ∧ ProcessEmailData.initialState.isConsent = false
    ∧ ProcessEmailData.proceedDisabled ProcessEmailData.initialState = false :=
  ⟨by decide, by decide,
   proceed_enabled_without_consent ProcessEmailData.initialState (by decide)⟩

/-- C5: on an item with at least one To recipient, `getMetadata` stores in
`metaData` exactly the six-field record built from the sender address, the
first To-recipient address, the subject, the conversation and item
identifiers, and the creation timestamp rendered as the decimal string of its
milliseconds-since-epoch value (the record type has exactly these six
fields, so nothing else is stored). -/
theorem getMetadata_fields (s : ProcessEmailData.State) (item : MailItem)
    (res : Except String (List HostAttachment))
    (firstTo : EmailAddressDetails) (rest : List EmailAddressDetails)
    (h : item.«to» = firstTo :: rest) :
    (ProcessEmailData.getMetadata s item res).map (fun p => p.fst.metaData)
      = some (some
          { sender := item.sender.emailAddress
            «to» := firstTo.emailAddress
            subject := item.subject
            conversationId := item.conversationId
            itemId := item.itemId
            timeStamp := toString item.dateTimeCreated }) := by
  simp [ProcessEmailData.getMetadata, h, fetchAttachmentMetadata_metaData]

/-- C5 witness: a concrete item with one recipient yields exactly the
six-field record, with the creation time 1234 stored as the string 1234. -/
theorem getMetadata_fields_witness :
    (ProcessEmailData.getMetadata ProcessEmailData.initialState
        { sender := { emailAddress := "s@x.y" }
          «to» := [{ emailAddress := "r@x.y" }]
          subject := "hello"
          conversationId := "c1"
          itemId := "i1"
          dateTimeCreated := 1234
          attachments := [] }
        (Except.ok [])).map (fun p => p.fst.metaData)
      = some (some
          { sender := "s@x.y", «to» := "r@x.y", subject := "hello",
            conversationId := "c1", itemId := "i1", timeStamp := "1234" }) :=
  (getMetadata_fields ProcessEmailData.initialState
      { sender := { emailAddress := "s@x.y" }
        «to» := [{ emailAddress := "r@x.y" }]
        subject := "hello"
        conversationId := "c1"
        itemId := "i1"
        dateTimeCreated := 1234
        attachments := [] }
      (Except.ok []) { emailAddress := "r@x.y" } [] rfl).trans (by decide)

/-- C6: the download loop issues exactly one content fetch per entry of the
host attachment list, keyed by that entry's id and in enumeration order, and
(whenever each success callback completes, i.e. its base64 payload decodes)
triggers exactly one anchor-click download per succeeded fetch, named by that
attachment's display name — in the consent-gated variant followed only by the
single metadata-file download. -/
theorem download_one_fetch_per_attachment
    (atts : List HostAttachment) (getContent : String → FetchResult)
    (h : ∀ att ∈ atts, callbackCompletes att (getContent att.id) = true) :
    ((TextInsertion.downloadAttachments atts getContent).filterMap Event.fetchId?
        = atts.map (fun att => att.id)
      ∧ (TextInsertion.downloadAttachments atts getContent).filterMap Event.downloadName?
        = (atts.filter (fun att => (getContent att.id).isSucceeded)).map
            (fun att => att.name))
    ∧ (∀ s : ProcessEmailData.State,
        (ProcessEmailData.downloadAttachments s (Except.ok atts) getContent).snd.filterMap
            Event.fetchId?
          = atts.map (fun att => att.id)
        ∧ (ProcessEmailData.downloadAttachments s (Except.ok atts) getContent).snd.filterMap
            Event.downloadName?
          = (atts.filter (fun att => (getContent att.id).isSucceeded)).map
              (fun att => att.name) ++ ["metadata.txt"]) := by
  refine ⟨⟨attachmentEvents_fetchIds atts getContent,
           attachmentEvents_downloadNames atts getContent h⟩, fun s => ⟨?_, ?_⟩⟩
    <;> simp [ProcessEmailData.downloadAttachments, List.filterMap_append,
          ProcessEmailData.downloadMetaData, Event.fetchId?, Event.downloadName?,
          attachmentEvents_fetchIds, attachmentEvents_downloadNames atts getContent h]

/-- C6 witness: on a two-attachment item where the first fetch succeeds and
the second fails, both variants issue fetches for both ids and download just
the first attachment's file (plus, in the consent-gated variant, the metadata
file). -/
theorem download_one_fetch_per_attachment_witness :
    (TextInsertion.downloadAttachments
        [{ id := "a1", name := "f.txt", contentType := "text/plain" },
         { id := "a2", name := "g.txt", contentType := "text/csv" }]
        (fun i => if i = "a1"
          then FetchResult.succeeded { content := "hello", format := AttachmentContentFormat.url }
          else FetchResult.failed "404")).filterMap Event.fetchId?
      = ["a1", "a2"]
    ∧ (TextInsertion.downloadAttachments
        [{ id := "a1", name := "f.txt", contentType := "text/plain" },
         { id := "a2", name := "g.txt", contentType := "text/csv" }]
        (fun i => if i = "a1"
          then FetchResult.succeeded { content := "hello", format := AttachmentContentFormat.url }
          else FetchResult.failed "404")).filterMap Event.downloadName?
      = ["f.txt"] :=
  have h := download_one_fetch_per_attachment
    [{ id := "a1", name := "f.txt", contentType := "text/plain" },
     { id := "a2", name := "g.txt", contentType := "text/csv" }]
    (fun i => if i = "a1"
      then FetchResult.succeeded { content := "hello", format := AttachmentContentFormat.url }
      else FetchResult.failed "404")
    (by decide)
  ⟨h.1.1.trans (by decide), h.1.2.trans (by decide)⟩

/-- C7: in the consent-gated variant, every invocation of
`downloadAttachments` whose enumeration does not throw ends by calling
`downloadMetaData`, which contributes exactly one download event: a
`text/plain` blob holding the `JSON.stringify` serialization of the current
`metaData`, under the fixed name `metadata.txt`; when the enumeration throws,
only a console error is produced. -/
theorem metadata_download_on_submit (s : ProcessEmailData.State)
    (atts : List HostAttachment) (getContent : String → FetchResult)
    (e : String) :
    (ProcessEmailData.downloadAttachments s (Except.ok atts) getContent).snd
      = attachmentEvents atts getContent ++ [ProcessEmailData.downloadMetaData s.metaData]
    ∧ ProcessEmailData.downloadMetaData s.metaData
      = Event.download "metadata.txt"
          { data := BlobData.text (ProcessEmailData.jsonStringify s.metaData),
            type := "text/plain" }
    ∧ (ProcessEmailData.downloadAttachments s (Except.error e) getContent).snd
      = [Event.consoleError ("Error fetching attachments " ++ e)] :=
  ⟨rfl, rfl, rfl⟩

/-- C8: component state keeps, per attachment, only the identifier and the
display name (the fetch variants store exactly the mapped id/name pairs — the
descriptor type has no content field), and the download operations read
content only through the on-demand fetch keyed by the stored id, leaving the
`attachments` state untouched (the plain variant's download touches no state
at all). -/
theorem attachments_state_id_name_only
    (atts : List HostAttachment) (getContent : String → FetchResult)
    (hne : atts ≠ [])
    (s1 : TextInsertion.State) (s2 : AttachmentProcess.State)
    (s3 : ProcessEmailData.State) :
    (TextInsertion.fetchAttachments s1 (Except.ok atts)).fst.attachments
        = atts.map (fun a => { id := a.id, name := a.name })
    ∧ (ProcessEmailData.fetchAttachmentMetadata s3 (Except.ok atts)).fst.attachments
        = atts.map (fun a => { id := a.id, name := a.name })
    ∧ (AttachmentProcess.downloadAttachments s2 atts getContent).fst.attachments
        = s2.attachments
    ∧ (ProcessEmailData.downloadAttachments s3 (Except.ok atts) getContent).fst.attachments
        = s3.attachments := by
  have hE : atts.isEmpty = false := by
    cases atts with
    | nil => exact absurd rfl hne
    | cons a rest => rfl
  refine ⟨?_, ?_, rfl, rfl⟩
    <;> simp [TextInsertion.fetchAttachments, ProcessEmailData.fetchAttachmentMetadata, hE]

/-- C8 witness: on a concrete one-attachment item, the fetched state holds
exactly the id/name descriptor and a download leaves it unchanged. -/
theorem attachments_state_id_name_only_witness :
    (TextInsertion.fetchAttachments TextInsertion.initialState
        (Except.ok [{ id := "a1", name := "f.txt", contentType := "text/plain" }])).fst.attachments
      = [{ id := "a1", name := "f.txt" }]
    ∧ (AttachmentProcess.downloadAttachments AttachmentProcess.initialState
        [{ id := "a1", name := "f.txt", contentType := "text/plain" }]
        (fun _ => FetchResult.failed "404")).fst.attachments
      = AttachmentProcess.initialState.attachments :=
  have h := attachments_state_id_name_only
    [{ id := "a1", name := "f.txt", contentType := "text/plain" }]
    (fun _ => FetchResult.failed "404") (by decide)
    TextInsertion.initialState AttachmentProcess.initialState
    ProcessEmailData.initialState
  ⟨h.1.trans (by decide), h.2.2.1⟩

/-- C9: in the two variants that track it, each completed content callback
overwrites `isSubmissionInitiated` with its own verdict (true on success,
false on failure), so after the whole download loop the flag — and the
success banner it controls — equals the verdict of the callback that ran
last: earlier failures can be masked by a later success. -/
theorem submission_flag_last_callback_wins
    (s2 : AttachmentProcess.State) (s3 : ProcessEmailData.State)
    (init : List HostAttachment) (lastAtt : HostAttachment)
    (getContent : String → FetchResult)
    (h : callbackCompletes lastAtt (getContent lastAtt.id) = true) :
    (AttachmentProcess.downloadAttachments s2 (init ++ [lastAtt])
        getContent).fst.isSubmissionInitiated
      = (getContent lastAtt.id).isSucceeded
    ∧ (ProcessEmailData.downloadAttachments s3 (Except.ok (init ++ [lastAtt]))
        getContent).fst.isSubmissionInitiated
      = (getContent lastAtt.id).isSucceeded := by
  constructor
    <;> simp [AttachmentProcess.downloadAttachments, ProcessEmailData.downloadAttachments,
          List.foldl_append, callbackFlag_of_completes _ _ _ h]

/-- C9 witness: with two attachments where the first fetch fails and the last
succeeds, both variants end the download loop with `isSubmissionInitiated =
true`, even though a fetch failed. -/
theorem submission_flag_last_callback_wins_witness :
    (AttachmentProcess.downloadAttachments AttachmentProcess.initialState
        ([{ id := "a1", name := "f.txt", contentType := "text/plain" }]
          ++ [{ id := "a2", name := "g.txt", contentType := "text/plain" }])
        (fun i => if i = "a1" then FetchResult.failed "boom"
          else FetchResult.succeeded { content := "x", format := AttachmentContentFormat.url })).fst.isSubmissionInitiated
      = true
    ∧ ((fun i => if i = "a1" then FetchResult.failed "boom"
          else FetchResult.succeeded { content := "x", format := AttachmentContentFormat.url })
        "a1").isSucceeded = false :=
  have h := submission_flag_last_callback_wins
    AttachmentProcess.initialState ProcessEmailData.initialState
    [{ id := "a1", name := "f.txt", contentType := "text/plain" }]
    { id := "a2", name := "g.txt", contentType := "text/plain" }
    (fun i => if i = "a1" then FetchResult.failed "boom"
      else FetchResult.succeeded { content := "x", format := AttachmentContentFormat.url })
    (by decide)
  ⟨h.1.trans (by decide), by decide⟩

/-- C10: `getMetadata` and the metadata display read the first To recipient
with no emptiness check and outside any try/catch: they produce a value
exactly when the recipient list is non-empty, and on an empty list the read
faults (modelled by `none`) — no state results at all, so in particular the
failure is never turned into the `isAttachmentFetched = false` UI flag. -/
theorem to_recipient_read_unguarded (s : ProcessEmailData.State)
    (item : MailItem) (res : Except String (List HostAttachment)) :
    (ProcessEmailData.getMetadata s item res = none ↔ item.«to» = [])
    ∧ (AttachmentProcess.renderedToAddress item = none ↔ item.«to» = []) := by
  constructor
  · cases hto : item.«to» with
    | nil => simp [ProcessEmailData.getMetadata, hto]
    | cons a l => simp [ProcessEmailData.getMetadata, hto]
  · simp [AttachmentProcess.renderedToAddress, List.head?_eq_none_iff]
